import Mathlib

/-!
Shallow embedding of the OOXML template structure extractor
(src/src/tools/custom_tool.py) and proofs about its behaviour.

Conventions of the embedding:
* XML element trees are modelled by the mutual inductive types Xml and
  XmlList below (the child sequence is its own inductive so that all
  recursion over the tree is structural and evaluates inside the kernel;
  XmlList.toList and xmlOf convert to and from ordinary lists).  Tag and
  attribute names are stored already namespace-qualified in the notation the
  source uses for its lookups (so "w:p" stands for the fully expanded
  wordprocessingml paragraph tag, "r:embed" for the relationship attribute,
  and so on).
* ElementTree descendant queries (".//w:x") are modelled by findList, which
  returns all strict descendants with the given tag in document order.
* Machine integers are Int/Nat; Python float values that occur here are
  exact decimals (attribute integers divided by 2, 50, 100, 1440 or 914400),
  so they are modelled exactly, and the two float renderings used by the
  source (str(x) in an f-string, and the fixed two decimal format .2f) are
  modelled by exact decimal printing (decimalOfCentis) and half-even rounding
  to two decimals (fixed2Div, ratDivFixed2).
* Fallible code (uncaught KeyError, TypeError, ValueError) is modelled with
  Except String; code whose exceptions are caught and turned into None
  (extract_image_info) is modelled with Option.
-/

mutual
/-- An XML element: tag, attributes, text, children (ElementTree view). -/
inductive Xml : Type where
  | mk (tag : String) (attrs : List (String × String)) (text : Option String)
      (children : XmlList)
deriving Repr
/-- A sequence of sibling XML elements. -/
inductive XmlList : Type where
  | nil
  | cons (x : Xml) (xs : XmlList)
deriving Repr
end

def XmlList.toList : XmlList → List Xml
  | .nil => []
  | .cons x xs => x :: xs.toList

def XmlList.ofList : List Xml → XmlList
  | [] => .nil
  | x :: xs => .cons x (XmlList.ofList xs)

/-- Element builder taking the children as an ordinary list. -/
def xmlOf (tag : String) (attrs : List (String × String)) (text : Option String)
    (children : List Xml) : Xml :=
  Xml.mk tag attrs text (XmlList.ofList children)

def Xml.tag : Xml → String
  | .mk t _ _ _ => t

def Xml.attrs : Xml → List (String × String)
  | .mk _ a _ _ => a

def Xml.text : Xml → Option String
  | .mk _ _ tx _ => tx

def Xml.children : Xml → XmlList
  | .mk _ _ _ c => c

/-- The children of an element as an ordinary list (iteration order). -/
def Xml.childList (x : Xml) : List Xml :=
  x.children.toList

/-- Element.get: look the attribute up in the attribute list (first match;
attribute names are unique in XML). -/
def Xml.get (x : Xml) (attr : String) : Option String :=
  (x.attrs.find? (fun pr => pr.1 == attr)).map (fun pr => pr.2)

mutual
/-- The element itself (when its tag matches) followed by its matching
strict descendants, in document (preorder) order. -/
def findTree (tag : String) : Xml → List Xml
  | Xml.mk t a tx cs =>
    (if t = tag then [Xml.mk t a tx cs] else []) ++ findList tag cs
/-- All elements of the sequence, and their descendants, carrying the given
tag, in document order.  Models the ElementTree query findall with a ".//"
path when applied to the children of an element. -/
def findList (tag : String) : XmlList → List Xml
  | .nil => []
  | .cons x xs => findTree tag x ++ findList tag xs
end

/-- elem.findall(".//tag"): all strict descendants with the tag. -/
def Xml.findall (x : Xml) (tag : String) : List Xml :=
  findList tag x.children

/-- elem.find(".//tag"): the first strict descendant with the tag. -/
def Xml.find (x : Xml) (tag : String) : Option Xml :=
  (x.findall tag).head?

/-- Digits of a decimal numeral; none when any character is not a digit.
An empty list yields some 0, callers guard against emptiness. -/
def digitsVal (cs : List Char) : Option Nat :=
  cs.foldl
    (fun acc c =>
      match acc with
      | none => none
      | some n => if c.isDigit then some (n * 10 + (c.toNat - 48)) else none)
    (some 0)

/-- Models the Python built-in int applied to a string: optional surrounding
whitespace, optional sign, one or more decimal digits.  (Underscore digit
separators are not modelled; the source only feeds plain attribute numerals
such as "24" or "1440" through this path.)  none models a raised
ValueError. -/
def pyInt (s : String) : Option Int :=
  let cs := s.toList.dropWhile (fun c => c.isWhitespace)
  let cs := (cs.reverse.dropWhile (fun c => c.isWhitespace)).reverse
  match cs with
  | [] => none
  | c :: rest =>
    if c == '-' then
      if rest.isEmpty then none else (digitsVal rest).map (fun n => -(n : Int))
    else if c == '+' then
      if rest.isEmpty then none else (digitsVal rest).map (fun n => (n : Int))
    else (digitsVal cs).map (fun n => (n : Int))

/-- Models the Python built-in float applied to a plain decimal literal:
optional surrounding whitespace, optional sign, digits with at most one
decimal point and at least one digit overall.  (Exponents, inf and nan are
not modelled; the source only feeds EMU integer strings through this path.)
none models a raised ValueError. -/
def pyFloat (s : String) : Option ℚ :=
  let cs := s.toList.dropWhile (fun c => c.isWhitespace)
  let cs := (cs.reverse.dropWhile (fun c => c.isWhitespace)).reverse
  let signAndDigits : Int × List Char :=
    match cs with
    | [] => (1, [])
    | c :: rest =>
      if c == '-' then (-1, rest)
      else if c == '+' then (1, rest)
      else (1, cs)
  let sign := signAndDigits.1
  let ds := signAndDigits.2
  if ds.isEmpty then none
  else
    let intPart := ds.takeWhile (fun c => !(c == '.'))
    let rest := ds.dropWhile (fun c => !(c == '.'))
    match rest with
    | [] => (digitsVal intPart).map (fun n => ((sign * (n : Int) : Int) : ℚ))
    | _ :: frac =>
      if frac.contains '.' then none
      else if intPart.isEmpty && frac.isEmpty then none
      else
        match digitsVal intPart, digitsVal frac with
        | some ip, some fp =>
          some ((sign : ℚ) * ((ip : ℚ) + (fp : ℚ) / ((10 : ℚ) ^ frac.length)))
        | _, _ => none

/-- Renders the exact value n / 100 the way the Python str function renders
the corresponding float: minimal digits after the decimal point but at least
one (so 100 renders as "1.0", 66 as "0.66", 150 as "1.5").  The source only
formats halves (size / 2) and fiftieths (width / 50) this way; both are
exactly representable with two decimals, and for such short decimals the
shortest repr of the nearest binary double is the decimal itself. -/
def decimalOfCentis (n : Int) : String :=
  let sign := if n < 0 then "-" else ""
  let m := n.natAbs
  let ip := m / 100
  let fp := m % 100
  let d1 := fp / 10
  let d2 := fp % 10
  let frac := if d2 = 0 then toString d1 else toString d1 ++ toString d2
  sign ++ toString ip ++ "." ++ frac

/-- Renders the value n / 100 with exactly two digits after the point,
as the Python fixed format .2f does for an already rounded value. -/
def centisFixed2 (n : Int) : String :=
  let sign := if n < 0 then "-" else ""
  let m := n.natAbs
  let ip := m / 100
  let fp := m % 100
  sign ++ toString ip ++ "." ++ (if fp < 10 then "0" else "") ++ toString fp

/-- Round num / den (den positive) to the nearest integer, ties to even:
the rounding the Python .2f format applies. -/
def roundHalfEvenDiv (num den : Int) : Int :=
  let q := num.ediv den
  let r := num.emod den
  if 2 * r < den then q
  else if 2 * r > den then q + 1
  else if q % 2 = 0 then q else q + 1

/-- Models the Python f-string piece with format .2f applied to the exact
quotient num / den (the source divides integer attribute values by 1440 or
914400 and formats the quotient to two decimals). -/
def fixed2Div (num den : Int) : String :=
  centisFixed2 (roundHalfEvenDiv (num * 100) den)

/-- fixed2Div for a rational numerator: formats q / den to two decimals. -/
def ratDivFixed2 (q : ℚ) (den : Int) : String :=
  centisFixed2 (roundHalfEvenDiv (q.num * 100) ((q.den : Int) * den))

/-- Python truthiness filter for an optional string: None and the empty
string are falsy. -/
def truthyStr : Option String → Option String
  | some s => if s == "" then none else some s
  | none => none

/-- Python expression a or b on optional strings (None and "" are falsy). -/
def pyOrStr (a b : Option String) : Option String :=
  match a with
  | some s => if s == "" then b else some s
  | none => b

/-! ## Data model (section 3 of the source docstring)

The dynamically assembled Python dicts are modelled by records.  A field of
type Option means the corresponding dict key is present only when the value
is some; a doubly optional field models a key that is always set when the
surrounding element exists but whose value may itself be None. -/

/-- Run style dict assembled by extract_run_info. -/
structure RunData where
  text : String
  bold : Bool
  italic : Bool
  underline : Bool
  font : Option (Option String)
  size : Option String
  color : Option (Option String)
  highlight : Option (Option String)
deriving Repr, DecidableEq

structure Indentation where
  left : String
  right : String
  firstLine : String
  hanging : String
deriving Repr, DecidableEq

structure Spacing where
  before : String
  after : String
  line : String
  lineRule : String
deriving Repr, DecidableEq

structure ParaStyle where
  styleName : Option (Option String)
  alignment : Option String
  indentation : Option Indentation
  spacing : Option Spacing
deriving Repr, DecidableEq

/-- Paragraph dict assembled by extract_paragraph_info (type "paragraph"). -/
structure Paragraph where
  style : ParaStyle
  textRuns : List RunData
  text : String
deriving Repr, DecidableEq

structure Positioning where
  relativeFrom : Option String
  offset : Option String
deriving Repr, DecidableEq

/-- Image dict assembled by extract_image_info (type "image"). -/
structure ImageData where
  width : String
  height : String
  positioning : Positioning
  contentType : String
  path : String
deriving Repr, DecidableEq

structure CellData where
  content : List Paragraph
  gridSpan : Option (Option String)
  verticalMerge : Option String
deriving Repr, DecidableEq

structure RowData where
  cells : List CellData
deriving Repr, DecidableEq

/-- Table dict assembled by extract_table_info (type "table"). -/
structure TableData where
  width : Option String
  alignment : Option (Option String)
  rows : List RowData
deriving Repr, DecidableEq

/-- The three content element kinds a page can hold (the "type" key of the
dicts appended to a page's element list). -/
inductive PageElement : Type where
  | paragraph (p : Paragraph)
  | image (i : ImageData)
  | table (t : TableData)
deriving Repr, DecidableEq

/-- The "type" discriminator string of a page element dict. -/
def PageElement.kind : PageElement → String
  | .paragraph _ => "paragraph"
  | .image _ => "image"
  | .table _ => "table"

structure Page where
  pageNumber : Nat
  elements : List PageElement
deriving Repr, DecidableEq

structure PageSize where
  width : String
  height : String
deriving Repr, DecidableEq

structure Margins where
  top : String
  right : String
  bottom : String
  left : String
deriving Repr, DecidableEq

structure Metadata where
  filename : String
  extractedAt : String
  pageSize : PageSize
  margins : Margins
  totalPages : Nat
deriving Repr, DecidableEq

structure TemplateStructure where
  metadata : Metadata
  pages : List Page
deriving Repr, DecidableEq

/-- The docx package: a zip archive exposing named parts.  Only the XML
parts the extractor reads are modelled; parsing of a stored part with
ET.fromstring is collapsed into the stored tree. -/
structure DocxZip where
  parts : List (String × Xml)
deriving Repr

/-- ZipFile.read on a member name: raises KeyError when the member is
missing (modelled as an error). -/
def DocxZip.read (z : DocxZip) (name : String) : Except String Xml :=
  match z.parts.find? (fun pr => pr.1 == name) with
  | some pr => Except.ok pr.2
  | none => Except.error ("KeyError: " ++ name)

/-- The relationship mapping built in extract_pages from the children of the
relationships root: rel.get(Id) maps to rel.get(Target); both attribute
values may be absent, and dict comprehension semantics let a later duplicate
key overwrite an earlier one. -/
abbrev RelMap := List (Option String × Option String)

/-- Python dict lookup on the relationship mapping (last duplicate wins). -/
def dictLookup (m : RelMap) (k : Option String) : Option (Option String) :=
  (m.reverse.find? (fun pr => pr.1 == k)).map (fun pr => pr.2)

def documentRelationships (rels_root : Xml) : RelMap :=
  rels_root.childList.map (fun rel => (rel.get "Id", rel.get "Target"))

/-! ## Run and paragraph extraction (extract_run_info, extract_paragraph_info) -/

/-- Almost all of the run dict: text is the concatenation of all descendant
text nodes; bold, italic and underline are presence flags; the font key maps
the ascii attribute with hAnsi as fallback under Python or semantics; color
and highlight store the val attribute (possibly None).  The size field is
supplied by the caller because its computation can raise. -/
def runDataBase (r : Xml) (size : Option String) : RunData :=
  { text := String.join ((r.findall "w:t").map (fun t => t.text.getD "")),
    bold := (r.find "w:b").isSome,
    italic := (r.find "w:i").isSome,
    underline := (r.find "w:u").isSome,
    font := (r.find "w:rFonts").map (fun f => pyOrStr (f.get "w:ascii") (f.get "w:hAnsi")),
    size := size,
    color := (r.find "w:color").map (fun c => c.get "w:val"),
    highlight := (r.find "w:highlight").map (fun hl => hl.get "w:val") }

/-- extract_run_info.  The size element value is parsed with int after a
getD default of "24" that applies only when the val attribute is missing; a
malformed value makes int raise a ValueError that no handler catches, so the
whole extraction aborts (Except.error).  The raw half point value is halved
and rendered as a float followed by "pt". -/
def extract_run_info (r : Xml) : Except String RunData :=
  match r.find "w:sz" with
  | none => Except.ok (runDataBase r none)
  | some sz =>
    match pyInt ((sz.get "w:val").getD "24") with
    | none => Except.error "ValueError: invalid literal for int"
    | some v => Except.ok (runDataBase r (some (decimalOfCentis (v * 50) ++ "pt")))

/-- Exception propagating traversal of a list, as a Python for loop over
fallible element processing: stops at the first raised error. -/
def exceptMapM {α β : Type} (f : α → Except String β) : List α → Except String (List β)
  | [] => Except.ok []
  | a :: rest =>
    match f a with
    | Except.error e => Except.error e
    | Except.ok b =>
      match exceptMapM f rest with
      | Except.error e => Except.error e
      | Except.ok bs => Except.ok (b :: bs)

/-- The paragraph style dict (style name, alignment, indentation, spacing);
alignment is stored only when the val attribute is truthy, indentation and
spacing attributes fall back to the documented defaults. -/
def paragraphStyle (p : Xml) : ParaStyle :=
  { styleName := (p.find "w:pStyle").map (fun e => e.get "w:val"),
    alignment :=
      match p.find "w:jc" with
      | none => none
      | some jc => truthyStr (jc.get "w:val"),
    indentation := (p.find "w:ind").map (fun e =>
      { left := (e.get "w:left").getD "0",
        right := (e.get "w:right").getD "0",
        firstLine := (e.get "w:firstLine").getD "0",
        hanging := (e.get "w:hanging").getD "0" }),
    spacing := (p.find "w:spacing").map (fun e =>
      { before := (e.get "w:before").getD "0",
        after := (e.get "w:after").getD "0",
        line := (e.get "w:line").getD "240",
        lineRule := (e.get "w:lineRule").getD "auto" }) }

/-- extract_paragraph_info: extracts the style dict, runs extract_run_info
over every descendant run, keeps only runs with nonempty text, and stores
the concatenation of the kept run texts. -/
def extract_paragraph_info (p : Xml) : Except String Paragraph :=
  match exceptMapM extract_run_info (p.findall "w:r") with
  | Except.error e => Except.error e
  | Except.ok allRuns =>
    Except.ok
      { style := paragraphStyle p,
        textRuns := allRuns.filter (fun r => r.text != ""),
        text := String.join ((allRuns.filter (fun r => r.text != "")).map RunData.text) }

/-! ## Image extraction (extract_image_info)

The whole function body runs under a try handler that prints and returns
None on any exception, so the model is Option valued: none covers both the
early returns of the source and any raised error. -/

/-- Content type inferred from the lowercased path extension. -/
def contentTypeOf (path : String) : String :=
  if path.toLower.endsWith ".png" then "image/png"
  else if path.toLower.endsWith ".gif" then "image/gif"
  else "image/jpeg"

/-- Python expression a or b on optional elements.  ElementTree elements are
falsy when they have no children, so the left operand is kept only when it
was found and has children. -/
def etOr (a b : Option Xml) : Option Xml :=
  match a with
  | some x => if x.childList.isEmpty then b else some x
  | none => b

/-- Width and height strings from the extent element: EMU values divided by
914400 and formatted to two decimals, or the literal "unknown" pair when
there is no extent element.  none models a raised error (missing cx or cy
attribute gives float(None), a malformed numeral gives a ValueError), which
the handler of extract_image_info turns into no image. -/
def imageDims (extent : Option Xml) : Option (String × String) :=
  match extent with
  | none => some ("unknown", "unknown")
  | some ex =>
    match ex.get "cx", ex.get "cy" with
    | some w, some h =>
      match pyFloat w, pyFloat h with
      | some wq, some hq =>
        some (ratDivFixed2 wq 914400 ++ "in", ratDivFixed2 hq 914400 ++ "in")
      | _, _ => none
    | _, _ => none

/-- The positioning dict: relativeFrom is stored when the attribute is
truthy; offset is stored when a posOffset descendant with truthy text is
present, converted from EMU to inches.  none models a float ValueError on
the offset text, which the handler turns into no image. -/
def imagePositioning (position : Option Xml) : Option Positioning :=
  match position with
  | none => some { relativeFrom := none, offset := none }
  | some pos =>
    let rf := truthyStr (pos.get "wp:relativeFrom")
    match pos.find "wp:posOffset" with
    | none => some { relativeFrom := rf, offset := none }
    | some po =>
      match truthyStr po.text with
      | none => some { relativeFrom := rf, offset := none }
      | some t =>
        match pyFloat t with
        | none => none
        | some q => some { relativeFrom := rf, offset := some (ratDivFixed2 q 914400 ++ "in") }

/-- extract_image_info: locate the blip, resolve its relationship id (an
absent or empty id, or one missing from the mapping, yields no image), build
the internal path from the Target value (a missing Target renders as the
Python string "None" inside the f-string), then compute dimensions and
positioning. -/
def extract_image_info (drawing : Xml) (relationships : RelMap) : Option ImageData :=
  match drawing.find "a:blip" with
  | none => none
  | some blip =>
    match truthyStr (blip.get "r:embed") with
    | none => none
    | some relId =>
      match dictLookup relationships (some relId) with
      | none => none
      | some target =>
        let image_path := "word/" ++ (match target with | some t => t | none => "None")
        match imageDims (drawing.find "wp:extent") with
        | none => none
        | some wh =>
          match imagePositioning
              (etOr (drawing.find "wp:positionH") (drawing.find "wp:posOffset")) with
          | none => none
          | some positioning =>
            some { width := wh.1, height := wh.2, positioning := positioning,
                   contentType := contentTypeOf image_path, path := image_path }

/-! ## Table extraction (extract_table_info)

All element queries here are descendant searches (".//"), so rows of tables
nested inside cells are found again at the outer level, and paragraphs of
nested tables are found again in the enclosing cell. -/

/-- Table level properties (width and alignment) from tblPr.  A pct width is
the value divided by 50 rendered as a float percentage; a dxa width is the
value divided by 1440 rendered to two decimals in inches.  int applied to a
missing attribute (None) or a malformed numeral raises, aborting the whole
extraction. -/
def table_properties (tbl : Xml) : Except String (Option String × Option (Option String)) :=
  match tbl.find "w:tblPr" with
  | none => Except.ok (none, none)
  | some tblPr =>
    let alignment := (tblPr.find "w:jc").map (fun jc => jc.get "w:val")
    match tblPr.find "w:tblW" with
    | none => Except.ok (none, alignment)
    | some tblW =>
      if tblW.get "w:type" == some "pct" then
        match tblW.get "w:w" with
        | none => Except.error "TypeError: int argument must not be None"
        | some s =>
          match pyInt s with
          | none => Except.error "ValueError: invalid literal for int"
          | some v => Except.ok (some (decimalOfCentis (v * 2) ++ "%"), alignment)
      else if tblW.get "w:type" == some "dxa" then
        match tblW.get "w:w" with
        | none => Except.error "TypeError: int argument must not be None"
        | some s =>
          match pyInt s with
          | none => Except.error "ValueError: invalid literal for int"
          | some v => Except.ok (some (fixed2Div v 1440 ++ "in"), alignment)
      else Except.ok (none, alignment)

/-- One cell: all descendant paragraphs plus merge metadata (gridSpan value,
vMerge value with OOXML default "continue" when the attribute is absent). -/
def table_cell (tc : Xml) : Except String CellData :=
  match exceptMapM extract_paragraph_info (tc.findall "w:p") with
  | Except.error e => Except.error e
  | Except.ok content =>
    Except.ok
      { content := content,
        gridSpan := (tc.find "w:gridSpan").map (fun g => g.get "w:val"),
        verticalMerge := (tc.find "w:vMerge").map (fun v => (v.get "w:val").getD "continue") }

/-- One row: all descendant cells. -/
def table_row (tr : Xml) : Except String RowData :=
  match exceptMapM table_cell (tr.findall "w:tc") with
  | Except.error e => Except.error e
  | Except.ok cells => Except.ok { cells := cells }

/-- extract_table_info: properties, then every descendant row. -/
def extract_table_info (tbl : Xml) : Except String TableData :=
  match table_properties tbl with
  | Except.error e => Except.error e
  | Except.ok props =>
    match exceptMapM table_row (tbl.findall "w:tr") with
    | Except.error e => Except.error e
    | Except.ok rows => Except.ok { width := props.1, alignment := props.2, rows := rows }

/-! ## Page partitioning (has_page_break, extract_pages) -/

/-- has_page_break: an explicit break element of type "page" anywhere below
the paragraph, or any section properties element below it. -/
def has_page_break (p : Xml) : Bool :=
  (p.findall "w:br").any (fun br => br.get "w:type" == some "page")
    || (p.find "w:sectPr").isSome

/-- The image elements contributed by a paragraph: for every descendant run,
its first drawing descendant, if any, resolved through extract_image_info;
unresolved drawings contribute nothing. -/
def paragraphImages (rel : RelMap) (p : Xml) : List PageElement :=
  (p.findall "w:r").filterMap (fun run =>
    match run.find "w:drawing" with
    | none => none
    | some drawing => (extract_image_info drawing rel).map PageElement.image)

/-- The body walk of extract_pages as a fold over the top level children:
state is the emitted pages, the current page number and the accumulation
buffer.  A paragraph is first extracted; if it carries a page break the
buffer accumulated so far is sealed into a page BEFORE the new paragraph is
appended, so the breaking paragraph starts the next page.  The paragraph
entry is followed by any images found in its runs.  A table contributes one
element.  Any other child (for example the trailing body level sectPr) is
skipped entirely.  After the walk a nonempty buffer forms a final page. -/
def walkBody (rel : RelMap) : List Xml → List Page → Nat → List PageElement →
    Except String (List Page)
  | [], pages, cur, buf =>
    if buf.isEmpty then Except.ok pages
    else Except.ok (pages ++ [{ pageNumber := cur, elements := buf }])
  | e :: rest, pages, cur, buf =>
    if e.tag = "w:p" then
      match extract_paragraph_info e with
      | Except.error msg => Except.error msg
      | Except.ok d =>
        if has_page_break e then
          walkBody rel rest (pages ++ [{ pageNumber := cur, elements := buf }]) (cur + 1)
            ([PageElement.paragraph d] ++ paragraphImages rel e)
        else
          walkBody rel rest pages cur (buf ++ [PageElement.paragraph d] ++ paragraphImages rel e)
    else if e.tag = "w:tbl" then
      match extract_table_info e with
      | Except.error msg => Except.error msg
      | Except.ok t => walkBody rel rest pages cur (buf ++ [PageElement.table t])
    else
      walkBody rel rest pages cur buf

/-- get_section_breaks: per section, raw page size and margin attribute
values.  Its result is computed by extract_pages but never used. -/
structure SectionInfo where
  width : Option (Option String)
  height : Option (Option String)
  marginsRaw : Option (Option String × Option String × Option String × Option String)
deriving Repr, DecidableEq

def get_section_breaks (root : Xml) : List SectionInfo :=
  (root.findall "w:sectPr").map (fun sectPr =>
    let pz := sectPr.find "w:pgSz"
    let pm := sectPr.find "w:pgMar"
    { width := pz.map (fun e => e.get "w:w"),
      height := pz.map (fun e => e.get "w:h"),
      marginsRaw := pm.map (fun e =>
        (e.get "w:top", e.get "w:right", e.get "w:bottom", e.get "w:left")) })

/-- extract_pages: read and parse the document part, then the relationships
part (a missing part raises KeyError, which nothing catches), build the
relationship mapping, locate the body (iterating a missing body would raise
a TypeError) and walk its children starting from page number 1 with an empty
buffer.  The section break list the source also computes (get_section_breaks)
is dead local state and has no effect on the result. -/
def extract_pages (z : DocxZip) : Except String (List Page) :=
  match z.read "word/document.xml" with
  | Except.error e => Except.error e
  | Except.ok root =>
    match z.read "word/_rels/document.xml.rels" with
    | Except.error e => Except.error e
    | Except.ok rels_root =>
      match root.find "w:body" with
      | none => Except.error "TypeError: NoneType object is not iterable"
      | some body => walkBody (documentRelationships rels_root) body.childList [] 1 []

/-! ## Page counting (count_pages) and document level metadata -/

/-- count_pages.  The primary method counts lastRenderedPageBreak markers
plus sectPr occurrences in the document part plus one; primary = none
models any failure of that method (the document part missing from the
archive, or unparsable XML), in which case the fallback divides the number
of paragraphs python-docx reports (the body level paragraph elements,
passed here as doc_paragraphs) by 30, with a floor of one page. -/
def count_pages (primary : Option Xml) (doc_paragraphs : List Xml) : Nat :=
  match primary with
  | some root => (root.findall "w:lastRenderedPageBreak").length
      + (root.findall "w:sectPr").length + 1
  | none => max 1 (doc_paragraphs.length / 30)

/-- The paragraphs python-docx exposes on a loaded document: the paragraph
children of the body element. -/
def docParagraphs (root : Xml) : List Xml :=
  match root.find "w:body" with
  | none => []
  | some body => body.childList.filter (fun c => c.tag == "w:p")

/-- The text python-docx exposes for a paragraph (concatenated text nodes);
used only to state nonemptiness of paragraphs. -/
def paragraphText (p : Xml) : String :=
  String.join ((p.findall "w:t").map (fun t => t.text.getD ""))

/-- Twips attribute of a section child element rendered as inches to two
decimals, as python-docx Length.inches formatted with .2f; a missing element
or attribute makes the source blow up on None (AttributeError), modelled as
an error. -/
def twipsAttrInches (child : Option Xml) (attr : String) : Except String String :=
  match child with
  | none => Except.error "AttributeError: NoneType"
  | some e =>
    match e.get attr with
    | none => Except.error "AttributeError: NoneType"
    | some s =>
      match pyInt s with
      | none => Except.error "ValueError: invalid twips value"
      | some v => Except.ok (fixed2Div v 1440 ++ "in")

/-- extract_page_size: first section properties element, page size from
pgSz; defaults to letter size when the document has no sections. -/
def extract_page_size (root : Xml) : Except String PageSize :=
  match root.findall "w:sectPr" with
  | [] => Except.ok { width := "8.5in", height := "11in" }
  | sect :: _ =>
    match twipsAttrInches (sect.find "w:pgSz") "w:w" with
    | Except.error e => Except.error e
    | Except.ok w =>
      match twipsAttrInches (sect.find "w:pgSz") "w:h" with
      | Except.error e => Except.error e
      | Except.ok h => Except.ok { width := w, height := h }

/-- extract_margins: first section properties element, margins from pgMar;
defaults to one inch all round when the document has no sections. -/
def extract_margins (root : Xml) : Except String Margins :=
  match root.findall "w:sectPr" with
  | [] => Except.ok { top := "1in", right := "1in", bottom := "1in", left := "1in" }
  | sect :: _ =>
    match twipsAttrInches (sect.find "w:pgMar") "w:top" with
    | Except.error e => Except.error e
    | Except.ok t =>
      match twipsAttrInches (sect.find "w:pgMar") "w:right" with
      | Except.error e => Except.error e
      | Except.ok r =>
        match twipsAttrInches (sect.find "w:pgMar") "w:bottom" with
        | Except.error e => Except.error e
        | Except.ok b =>
          match twipsAttrInches (sect.find "w:pgMar") "w:left" with
          | Except.error e => Except.error e
          | Except.ok l => Except.ok { top := t, right := r, bottom := b, left := l }

/-- extract_doc_template_structure for an OOXML package (the legacy .doc
conversion branch is outside this embedding): loading the document fails
when the document part is missing; metadata is assembled (filename, the
datetime.now() timestamp passed as now, page size, margins, total pages)
and then the pages are extracted.  Since the document part parsed, the
primary page counting method succeeds. -/
def extract_doc_template_structure (z : DocxZip) (filename now : String) :
    Except String TemplateStructure :=
  match z.read "word/document.xml" with
  | Except.error e => Except.error e
  | Except.ok root =>
    match extract_page_size root with
    | Except.error e => Except.error e
    | Except.ok pageSize =>
      match extract_margins root with
      | Except.error e => Except.error e
      | Except.ok margins =>
        match extract_pages z with
        | Except.error e => Except.error e
        | Except.ok pages =>
          Except.ok
            { metadata :=
                { filename := filename, extractedAt := now, pageSize := pageSize,
                  margins := margins,
                  totalPages := count_pages (some root) (docParagraphs root) },
              pages := pages }

/-- save_template_structure output path selection: the caller supplied path,
or a name derived from the current timestamp. -/
def save_template_structure_path (output_path : Option String) (timestamp : String) : String :=
  match output_path with
  | some p => p
  | none => "template_structure_" ++ timestamp ++ ".json"

/-- Erase the one clock dependent field of an extraction result. -/
def scrubExtractedAt (t : TemplateStructure) : TemplateStructure :=
  { t with metadata := { t.metadata with extractedAt := "" } }

/-! ## Concrete packages and elements used by the concrete theorems -/

/-- A run dict carrying only text. -/
def runDataOf (s : String) : RunData :=
  { text := s, bold := false, italic := false, underline := false,
    font := none, size := none, color := none, highlight := none }

/-- A plain paragraph element with a single run holding one text node. -/
def xmlPara (s : String) : Xml :=
  xmlOf "w:p" [] none [xmlOf "w:r" [] none [xmlOf "w:t" [] (some s) []]]

/-- The extraction result of xmlPara. -/
def plainPara (s : String) : Paragraph :=
  { style := { styleName := none, alignment := none, indentation := none, spacing := none },
    textRuns := [runDataOf s], text := s }

/-- A paragraph whose run carries an explicit page break before its text. -/
def pBrkC1 : Xml :=
  xmlOf "w:p" [] none
    [xmlOf "w:r" [] none
      [xmlOf "w:br" [("w:type", "page")] none [], xmlOf "w:t" [] (some "B") []]]

/-- The extraction result of pBrkC1. -/
def paraBrkC1 : Paragraph :=
  { style := { styleName := none, alignment := none, indentation := none, spacing := none },
    textRuns := [runDataOf "B"], text := "B" }

/-- Package: paragraph "A", then the breaking paragraph "B". -/
def zC1 : DocxZip :=
  { parts :=
      [("word/document.xml",
        xmlOf "w:document" [] none [xmlOf "w:body" [] none [xmlPara "A", pBrkC1]]),
       ("word/_rels/document.xml.rels", xmlOf "Relationships" [] none [])] }

/-- Package with a document part but no relationships part. -/
def zC2 : DocxZip :=
  { parts :=
      [("word/document.xml",
        xmlOf "w:document" [] none [xmlOf "w:body" [] none [xmlPara "A"]])] }

/-- A run whose size element has a malformed val attribute. -/
def runBadSz : Xml :=
  xmlOf "w:r" [] none [xmlOf "w:sz" [("w:val", "abc")] none []]

/-- A size element with no val attribute. -/
def szNoVal : Xml := xmlOf "w:sz" [] none []

/-- A run whose size element has no val attribute. -/
def runNoValSz : Xml := xmlOf "w:r" [] none [szNoVal]

/-- Table with a pct width of 50. -/
def tblPct50 : Xml :=
  xmlOf "w:tbl" [] none
    [xmlOf "w:tblPr" [] none [xmlOf "w:tblW" [("w:type", "pct"), ("w:w", "50")] none []]]

/-- Table with a dxa width of 1440. -/
def tblDxa1440 : Xml :=
  xmlOf "w:tbl" [] none
    [xmlOf "w:tblPr" [] none [xmlOf "w:tblW" [("w:type", "dxa"), ("w:w", "1440")] none []]]

/-- One paragraph package. -/
def zC6 : DocxZip :=
  { parts :=
      [("word/document.xml",
        xmlOf "w:document" [] none [xmlOf "w:body" [] none [xmlPara "hello"]]),
       ("word/_rels/document.xml.rels", xmlOf "Relationships" [] none [])] }

def pagesC6 : List Page :=
  [{ pageNumber := 1, elements := [PageElement.paragraph (plainPara "hello")] }]

/-- A nonempty paragraph used for the fallback page count instance. -/
def pxC7 : Xml := xmlPara "x"

/-- A table with one row and one cell, that cell containing one paragraph
and a nested table with one row, one cell and one paragraph. -/
def tblNested : Xml :=
  xmlOf "w:tbl" [] none
    [xmlOf "w:tr" [] none
      [xmlOf "w:tc" [] none
        [xmlPara "outer",
         xmlOf "w:tbl" [] none
           [xmlOf "w:tr" [] none [xmlOf "w:tc" [] none [xmlPara "inner"]]]]]]

/-- The value extract_table_info computes for tblNested: the nested row is
flattened into the outer row list, the nested cell into the outer row, and
the nested paragraph is repeated inside the outer cell. -/
def tblNestedResult : TableData :=
  { width := none, alignment := none,
    rows :=
      [{ cells :=
          [{ content := [plainPara "outer", plainPara "inner"],
             gridSpan := none, verticalMerge := none },
           { content := [plainPara "inner"], gridSpan := none, verticalMerge := none }] },
       { cells :=
          [{ content := [plainPara "inner"], gridSpan := none, verticalMerge := none }] }] }

/-- One paragraph package for the determinism claim. -/
def zC9 : DocxZip :=
  { parts :=
      [("word/document.xml",
        xmlOf "w:document" [] none [xmlOf "w:body" [] none [xmlPara "A"]]),
       ("word/_rels/document.xml.rels", xmlOf "Relationships" [] none [])] }

/-- A body level section properties element (the usual trailing child). -/
def sectPrC10 : Xml := xmlOf "w:sectPr" [] none []

/-! ## Helper lemmas -/

/-- A successful exception propagating traversal preserves the length. -/
theorem exceptMapM_length {α β : Type} (f : α → Except String β) :
    ∀ (l : List α) (out : List β), exceptMapM f l = Except.ok out → out.length = l.length := by
  intro l
  induction l with
  | nil =>
    intro out h
    unfold exceptMapM at h
    injection h with h2
    subst h2
    rfl
  | cons a rest ih =>
    intro out h
    unfold exceptMapM at h
    split at h
    · simp at h
    · split at h
      · simp at h
      · rename_i b hb bs hbs
        injection h with h2
        subst h2
        simp [ih bs hbs]

/-- Page numbers of a page list are n, n + 1, n + 2, ... in order. -/
def numberedFrom : Nat → List Page → Prop
  | _, [] => True
  | n, pg :: rest => pg.pageNumber = n ∧ numberedFrom (n + 1) rest

theorem numberedFrom_append (pg : Page) :
    ∀ (l : List Page) (n : Nat), numberedFrom n l → pg.pageNumber = n + l.length →
      numberedFrom n (l ++ [pg]) := by
  intro l
  induction l with
  | nil =>
    intro n _ hn
    exact ⟨by simpa using hn, trivial⟩
  | cons p0 rest ih =>
    intro n hnum hn
    exact ⟨hnum.1, ih (n + 1) hnum.2 (by simp at hn ⊢; omega)⟩

theorem numberedFrom_get :
    ∀ (l : List Page) (n i : Nat) (hi : i < l.length), numberedFrom n l →
      (l.get ⟨i, hi⟩).pageNumber = n + i := by
  intro l
  induction l with
  | nil =>
    intro n i hi
    exact absurd hi (Nat.not_lt_zero i)
  | cons p0 rest ih =>
    intro n i hi hnum
    cases i with
    | zero => simpa using hnum.1
    | succ j =>
      have h2 := ih (n + 1) j (Nat.lt_of_succ_lt_succ hi) hnum.2
      show (rest.get ⟨j, Nat.lt_of_succ_lt_succ hi⟩).pageNumber = n + (j + 1)
      omega

/-- Main invariant of the body walk: if the pages accumulated so far are
numbered 1, 2, ... and the current page number continues that sequence, the
final page list is numbered 1, 2, ... as well. -/
theorem walkBody_numberedFrom (rel : RelMap) :
    ∀ (elems : List Xml) (pages : List Page) (cur : Nat) (buf : List PageElement)
      (out : List Page),
      numberedFrom 1 pages → cur = pages.length + 1 →
      walkBody rel elems pages cur buf = Except.ok out → numberedFrom 1 out := by
  intro elems
  induction elems with
  | nil =>
    intro pages cur buf out hnum hcur h
    unfold walkBody at h
    split at h
    · injection h with h2
      subst h2
      exact hnum
    · injection h with h2
      subst h2
      exact numberedFrom_append _ pages 1 hnum (by simp [hcur]; omega)
  | cons e rest ih =>
    intro pages cur buf out hnum hcur h
    unfold walkBody at h
    split at h
    · -- paragraph child
      split at h
      · simp at h
      · split at h
        · -- page break: seal the buffer, continue with the next number
          refine ih (pages ++ [{ pageNumber := cur, elements := buf }]) (cur + 1) _ out
            (numberedFrom_append _ pages 1 hnum (by simp [hcur]; omega)) (by simp [hcur]) h
        · exact ih pages cur _ out hnum hcur h
    · split at h
      · split at h
        · simp at h
        · exact ih pages cur _ out hnum hcur h
      · exact ih pages cur buf out hnum hcur h

/-! ## Claim theorems -/

/-- C1 counterexample: in the package zC1 the second paragraph carries a
page break, yet extract_pages places its extracted data in page 2 (the page
it starts), while the sealed page 1 holds only the first paragraph — the
breaking paragraph is NOT appended to the current buffer before sealing, so
the claim is false at this input. -/
theorem pageBreak_attribution_cex :
    extract_pages zC1 =
      Except.ok [{ pageNumber := 1, elements := [PageElement.paragraph (plainPara "A")] },
                 { pageNumber := 2, elements := [PageElement.paragraph paraBrkC1] }] ∧
    has_page_break pBrkC1 = true ∧
    PageElement.paragraph paraBrkC1 ∉
      ([PageElement.paragraph (plainPara "A")] : List PageElement) :=
  ⟨rfl, rfl, by decide⟩

/-- C1 amended: for every paragraph that triggers a page break, the Body
Walker seals the buffer accumulated so far into a Page BEFORE appending the
breaking paragraph; the breaking paragraph (followed by its images) starts
the next page buffer, so it is attributed to the page it starts, not the
page it ends. -/
theorem walkBody_break_seals_before_append (rel : RelMap) (e : Xml) (rest : List Xml)
    (pages : List Page) (cur : Nat) (buf : List PageElement) (d : Paragraph)
    (h1 : e.tag = "w:p") (h2 : has_page_break e = true)
    (h3 : extract_paragraph_info e = Except.ok d) :
    walkBody rel (e :: rest) pages cur buf =
      walkBody rel rest (pages ++ [{ pageNumber := cur, elements := buf }]) (cur + 1)
        ([PageElement.paragraph d] ++ paragraphImages rel e) := by
  conv_lhs => rw [walkBody]
  rw [if_pos h1, h3]
  dsimp only
  rw [if_pos h2]

/-- The page the walk seals in the witness below. -/
def pageC1w : Page :=
  { pageNumber := 1, elements := [PageElement.paragraph (plainPara "A")] }

/-- C1 witness: the amended theorem applied to the breaking paragraph of
zC1 with one already accumulated element. -/
theorem walkBody_break_seals_before_append_witness :
    walkBody [] [pBrkC1] [] 1 [PageElement.paragraph (plainPara "A")] =
      walkBody [] [] ([] ++ [pageC1w]) (1 + 1)
        ([PageElement.paragraph paraBrkC1] ++ paragraphImages [] pBrkC1) :=
  walkBody_break_seals_before_append [] pBrkC1 [] [] 1
    [PageElement.paragraph (plainPara "A")] paraBrkC1 rfl (by decide) rfl

/-- C4 counterexample: a table of width type pct with value 50 is rendered
as "1.0%" (plain Python float printing), not the claimed "1.00%". -/
theorem table_width_pct_format_cex :
    Except.map TableData.width (extract_table_info tblPct50) = Except.ok (some "1.0%") ∧
    (some "1.0%" : Option String) ≠ some "1.00%" :=
  ⟨rfl, by decide⟩

/-- C4 amended: a pct width of 50 yields the string "1.0%" (value divided
by 50 rendered with Python float str, without fixed two decimal
formatting), and a dxa width of 1440 yields "1.00in" (twips divided by
1440, two decimal inches). -/
theorem table_width_conversion_amended :
    Except.map TableData.width (extract_table_info tblPct50) = Except.ok (some "1.0%") ∧
    Except.map TableData.width (extract_table_info tblDxa1440) = Except.ok (some "1.00in") :=
  ⟨rfl, rfl⟩

/-- C7: when the primary page count method fails (primary = none), the
total page count is max 1 (paragraph count / 30); in particular a document
whose paragraph list has exactly 65 entries, all nonempty, yields 2. -/
theorem count_pages_fallback_formula :
    ∀ paras : List Xml,
      count_pages none paras = max 1 (paras.length / 30) ∧
      (paras.length = 65 → (∀ p ∈ paras, paragraphText p ≠ "") →
        count_pages none paras = 2) := by
  intro paras
  constructor
  · rfl
  · intro h65 _
    show max 1 (paras.length / 30) = 2
    rw [h65]
    decide

/-- C7 witness: 65 copies of a nonempty paragraph. -/
theorem count_pages_fallback_formula_witness :
    count_pages none (List.replicate 65 pxC7) = max 1 ((List.replicate 65 pxC7).length / 30) ∧
    count_pages none (List.replicate 65 pxC7) = 2 :=
  ⟨(count_pages_fallback_formula (List.replicate 65 pxC7)).1,
   (count_pages_fallback_formula (List.replicate 65 pxC7)).2 (by simp)
     (fun p hp => by rw [List.eq_of_mem_replicate hp]; decide)⟩

/-- C10: a body child that is neither a paragraph nor a table is skipped
by the Body Walker without appending anything, sealing anything or touching
the page number; and every page element is a paragraph, an image or a
table. -/
theorem walkBody_skips_non_content_children (rel : RelMap) (e : Xml) (rest : List Xml)
    (pages : List Page) (cur : Nat) (buf : List PageElement)
    (h1 : e.tag ≠ "w:p") (h2 : e.tag ≠ "w:tbl") :
    walkBody rel (e :: rest) pages cur buf = walkBody rel rest pages cur buf ∧
    ∀ el : PageElement, el.kind = "paragraph" ∨ el.kind = "image" ∨ el.kind = "table" := by
  constructor
  · conv_lhs => rw [walkBody]
    rw [if_neg h1, if_neg h2]
  · intro el
    cases el with
    | paragraph p => exact Or.inl rfl
    | image i => exact Or.inr (Or.inl rfl)
    | table t => exact Or.inr (Or.inr rfl)

/-- C10 witness: a trailing body level sectPr is skipped and seals
nothing. -/
theorem walkBody_skips_non_content_children_witness :
    walkBody [] [sectPrC10] [] 1 [] = walkBody [] [] [] 1 [] ∧
    ∀ el : PageElement, el.kind = "paragraph" ∨ el.kind = "image" ∨ el.kind = "table" :=
  walkBody_skips_non_content_children [] sectPrC10 [] [] 1 [] (by decide) (by decide)

/-- C2 counterexample: on a package whose relationships part is absent,
extract_pages does not succeed with an empty mapping — the KeyError from the
zip read propagates and aborts the extraction. -/
theorem extract_pages_missing_rels_cex :
    extract_pages zC2 = Except.error "KeyError: word/_rels/document.xml.rels" :=
  rfl

/-- C2 amended: for every package whose relationships part
word/_rels/document.xml.rels is absent, extract_pages raises (returns an
error): the missing part is a KeyError that nothing catches, so extraction
aborts instead of degrading to an empty relationship mapping. -/
theorem extract_pages_missing_rels_errors (z : DocxZip)
    (h : z.parts.find? (fun pr => pr.1 == "word/_rels/document.xml.rels") = none) :
    ∃ msg, extract_pages z = Except.error msg := by
  have hrels : z.read "word/_rels/document.xml.rels" =
      Except.error ("KeyError: " ++ "word/_rels/document.xml.rels") := by
    unfold DocxZip.read
    rw [h]
  cases hr : z.read "word/document.xml" with
  | error e =>
    refine ⟨e, ?_⟩
    unfold extract_pages
    rw [hr]
  | ok root =>
    refine ⟨"KeyError: " ++ "word/_rels/document.xml.rels", ?_⟩
    unfold extract_pages
    rw [hr]
    dsimp only
    rw [hrels]

/-- C2 witness: the amended theorem applied to zC2. -/
theorem extract_pages_missing_rels_errors_witness :
    ∃ msg, extract_pages zC2 = Except.error msg :=
  extract_pages_missing_rels_errors zC2 rfl

/-- C3 counterexample: a run whose size element carries the malformed value
"abc" makes run extraction abort with a ValueError instead of falling back
to the 24 half point default. -/
theorem run_size_malformed_aborts_cex :
    extract_run_info runBadSz = Except.error "ValueError: invalid literal for int" :=
  rfl

/-- C3 amended: when the size element is present but its val attribute is
MISSING, run extraction succeeds and the size falls back to the raw default
24 half points, rendered "12.0pt" (Python float printing of 24 / 2 followed
by "pt"); a malformed value, by contrast, raises an uncaught ValueError that
aborts the extraction. -/
theorem run_size_missing_val_defaults (r sz : Xml)
    (h1 : r.find "w:sz" = some sz) (h2 : sz.get "w:val" = none) :
    Except.map RunData.size (extract_run_info r) = Except.ok (some "12.0pt") := by
  unfold extract_run_info
  rw [h1]
  dsimp only
  rw [h2]
  rfl

/-- C3 witness: the amended theorem applied to a run with a bare size
element. -/
theorem run_size_missing_val_defaults_witness :
    Except.map RunData.size (extract_run_info runNoValSz) = Except.ok (some "12.0pt") :=
  run_size_missing_val_defaults runNoValSz szNoVal rfl rfl

/-- C5: for every successfully extracted paragraph, the derived text equals
the in order concatenation of the texts of its kept runs, and no run with
empty text appears in textRuns. -/
theorem paragraph_text_concat_invariant (p : Xml) (d : Paragraph)
    (h : extract_paragraph_info p = Except.ok d) :
    d.text = String.join (d.textRuns.map RunData.text) ∧
    ∀ r ∈ d.textRuns, r.text ≠ "" := by
  unfold extract_paragraph_info at h
  split at h
  · simp at h
  · rename_i allRuns hm
    injection h with h2
    subst h2
    constructor
    · rfl
    · intro r hr
      have hcond := (List.mem_filter.mp hr).2
      simpa using hcond

/-- C5 witness: the invariant applied to a concrete paragraph. -/
theorem paragraph_text_concat_invariant_witness :
    (plainPara "A").text = String.join ((plainPara "A").textRuns.map RunData.text) ∧
    ∀ r ∈ (plainPara "A").textRuns, r.text ≠ "" :=
  paragraph_text_concat_invariant (xmlPara "A") (plainPara "A") rfl

/-- C6: every successful extraction yields pages numbered i + 1 at index i:
page numbers are 1 based, contiguous and strictly increasing. -/
theorem extract_pages_page_numbers (z : DocxZip) (pages : List Page)
    (h : extract_pages z = Except.ok pages) :
    ∀ (i : Nat) (hi : i < pages.length), (pages.get ⟨i, hi⟩).pageNumber = i + 1 := by
  intro i hi
  unfold extract_pages at h
  split at h
  · simp at h
  · split at h
    · simp at h
    · split at h
      · simp at h
      · have hnum := walkBody_numberedFrom _ _ [] 1 [] pages trivial rfl h
        have hg := numberedFrom_get pages 1 i hi hnum
        omega

/-- C6 witness: the page list of the one paragraph package zC6. -/
theorem extract_pages_page_numbers_witness :
    (pagesC6.get ⟨0, Nat.zero_lt_one⟩).pageNumber = 0 + 1 :=
  extract_pages_page_numbers zC6 pagesC6 rfl 0 Nat.zero_lt_one

/-- C8 counterexample: for the table tblNested (one row, one cell holding a
paragraph "outer" and a nested one row, one cell, one paragraph table
"inner"), the extractor returns TWO rows — the nested row is hoisted into
the outer row list — and the outer cell content contains the nested
paragraph as well; the claimed shape with only the own row, cell and
paragraph would be [[["outer"]]]. -/
theorem nested_table_extracted_cex :
    Except.map
        (fun t => t.rows.map (fun r => r.cells.map (fun c => c.content.map Paragraph.text)))
        (extract_table_info tblNested) =
      Except.ok [[["outer", "inner"], ["inner"]], [["inner"]]] ∧
    ([[["outer", "inner"], ["inner"]], [["inner"]]] : List (List (List String))) ≠
      [[["outer"]]] :=
  ⟨rfl, by decide⟩

/-- C8 amended: nested tables ARE traversed: the rows list of an extracted
table has one entry for EVERY descendant row element (the descendant search
picks up rows of tables nested inside cells), not only for the rows that
belong to the table itself; likewise every descendant cell of a row and
every descendant paragraph of a cell is included, duplicating nested
content. -/
theorem table_rows_flattened_descendants (t : Xml) (T : TableData)
    (h : extract_table_info t = Except.ok T) :
    T.rows.length = (t.findall "w:tr").length := by
  unfold extract_table_info at h
  split at h
  · simp at h
  · split at h
    · simp at h
    · rename_i props hp rows hrows
      injection h with h2
      subst h2
      exact exceptMapM_length table_row (t.findall "w:tr") rows hrows

/-- C8 witness: tblNested has one own row but two descendant rows, and both
are extracted. -/
theorem table_rows_flattened_descendants_witness :
    tblNestedResult.rows.length = (tblNested.findall "w:tr").length :=
  table_rows_flattened_descendants tblNested tblNestedResult rfl

/-- C9 counterexample: two invocations of the extractor on the same package
at different clock times produce UNEQUAL output structures (they differ in
metadata.extractedAt, which embeds datetime.now()), and the default output
file name also differs because it embeds a timestamp. -/
theorem extraction_time_dependence_cex :
    Except.map (fun s => s.metadata.extractedAt)
        (extract_doc_template_structure zC9 "template.docx" "2025-01-01T00:00:00") =
      Except.ok "2025-01-01T00:00:00" ∧
    Except.map (fun s => s.metadata.extractedAt)
        (extract_doc_template_structure zC9 "template.docx" "2025-01-01T00:00:01") =
      Except.ok "2025-01-01T00:00:01" ∧
    extract_doc_template_structure zC9 "template.docx" "2025-01-01T00:00:00" ≠
      extract_doc_template_structure zC9 "template.docx" "2025-01-01T00:00:01" ∧
    save_template_structure_path none "20250101000000" ≠
      save_template_structure_path none "20250101000001" := by
  have e1 : Except.map (fun s : TemplateStructure => s.metadata.extractedAt)
      (extract_doc_template_structure zC9 "template.docx" "2025-01-01T00:00:00") =
      Except.ok "2025-01-01T00:00:00" := rfl
  have e2 : Except.map (fun s : TemplateStructure => s.metadata.extractedAt)
      (extract_doc_template_structure zC9 "template.docx" "2025-01-01T00:00:01") =
      Except.ok "2025-01-01T00:00:01" := rfl
  refine ⟨e1, e2, ?_, by decide⟩
  intro hEq
  have h2 := congrArg
    (Except.map (fun s : TemplateStructure => s.metadata.extractedAt)) hEq
  rw [e1, e2] at h2
  injection h2 with h3
  exact absurd h3 (by decide)

/-- C9 amended: extraction is deterministic as a function of the input
package and the invocation time: erasing the one clock derived field
(metadata.extractedAt) makes the results of two invocations at arbitrary
times equal, so every other output field depends only on the input. -/
theorem extraction_deterministic_modulo_timestamp (z : DocxZip) (fn t1 t2 : String) :
    Except.map scrubExtractedAt (extract_doc_template_structure z fn t1) =
      Except.map scrubExtractedAt (extract_doc_template_structure z fn t2) := by
  unfold extract_doc_template_structure
  cases z.read "word/document.xml" with
  | error e => rfl
  | ok root =>
    dsimp only
    cases extract_page_size root with
    | error e => rfl
    | ok ps =>
      dsimp only
      cases extract_margins root with
      | error e => rfl
      | ok m =>
        dsimp only
        cases extract_pages z with
        | error e => rfl
        | ok pgs => rfl
